import Mathlib

/-!
Verification of gluonts/distribution/beta.py: the Beta distribution
wrapper (class Beta) and its parameter projection (class BetaOutput).

Tensors are modelled as a shape (list of dimension sizes) together with a
flat data function from linear indices to real numbers; elementwise
backend operations act pointwise on the data and leave the shape of their
first operand.  The tensor backend F is a structure of the elementwise
functions the module consumes (log, gammaln, sqrt, square, softplus) plus
the gamma sampler, so theorems quantify over every backend where the
claim does, and use the concrete mathematical backend where the claim
speaks about the actual functions.
-/

namespace GluonTS

noncomputable section

/-- An N-dimensional numeric array: a shape plus flat data indexed by
linear position (positions past the size are junk padding). -/
structure Tensor where
  shape : List Nat
  data : Nat → ℝ

namespace Tensor

/-- Elementwise unary operation. -/
def map (f : ℝ → ℝ) (t : Tensor) : Tensor :=
  ⟨t.shape, fun i => f (t.data i)⟩

/-- Elementwise binary operation on same-shaped tensors (shape taken from
the first operand, as broadcasting of equal shapes returns that shape). -/
def map2 (f : ℝ → ℝ → ℝ) (a b : Tensor) : Tensor :=
  ⟨a.shape, fun i => f (a.data i) (b.data i)⟩

/-- Elementwise tensor addition. -/
def add (a b : Tensor) : Tensor := map2 (fun x y => x + y) a b

/-- Elementwise tensor subtraction. -/
def sub (a b : Tensor) : Tensor := map2 (fun x y => x - y) a b

/-- Elementwise tensor multiplication. -/
def mul (a b : Tensor) : Tensor := map2 (fun x y => x * y) a b

/-- Elementwise tensor division. -/
def div (a b : Tensor) : Tensor := map2 (fun x y => x / y) a b

/-- Tensor plus broadcast scalar, as in `alpha + beta + 1`. -/
def addScalar (t : Tensor) (c : ℝ) : Tensor := map (fun x => x + c) t

/-- Tensor minus broadcast scalar, as in `alpha - 1`. -/
def subScalar (t : Tensor) (c : ℝ) : Tensor := map (fun x => x - c) t

/-- Broadcast scalar minus tensor, as in `1 - x`. -/
def scalarSub (c : ℝ) (t : Tensor) : Tensor := map (fun x => c - x) t

/-- `t.squeeze(axis=-1)`: remove the trailing axis (valid when its size
is 1, in which case the flat data is unchanged). -/
def squeezeLast (t : Tensor) : Tensor := ⟨t.shape.dropLast, t.data⟩

/-- `F.ones_like(t)`: a tensor of ones with the shape of `t`. -/
def onesLike (t : Tensor) : Tensor := ⟨t.shape, fun _ => 1⟩

/-- Stack `n` copies of `t` along a new leading axis. -/
def stack (n : Nat) (t : Tensor) : Tensor :=
  ⟨n :: t.shape, fun i => t.data (i % t.shape.prod)⟩

end Tensor

/-- The tensor-computation backend `F` consumed by the module: the
elementwise functions `log`, `gammaln`, `sqrt`, `square`, `softplus`
(each applied pointwise via `Tensor.map`), and the gamma-variate sampler
`sample_gamma(alpha, beta)` whose randomness is external. -/
structure Backend where
  log : ℝ → ℝ
  gammaln : ℝ → ℝ
  sqrt : ℝ → ℝ
  square : ℝ → ℝ
  softplus : ℝ → ℝ
  sampleGamma : Tensor → Tensor → Tensor

/-- Modelled from the spec: the helper `softplus(F, x)` imported from
gluonts.distribution.distribution (not under src) applies the backend's
smooth positivity transform elementwise. -/
def softplusT (F : Backend) (t : Tensor) : Tensor := t.map F.softplus

/-- Modelled from the spec: the concrete mathematical tensor backend of
section 6 — elementwise natural `log`, `gammaln` (log-gamma), `sqrt`,
`square`, and `softplus(x) = log(1+exp(x))`; the gamma sampler `sg` is
the externally supplied source of randomness. -/
noncomputable def mathBackend (sg : Tensor → Tensor → Tensor) : Backend where
  log := Real.log
  gammaln := fun x => Real.log (Real.Gamma x)
  sqrt := Real.sqrt
  square := fun x => x ^ 2
  softplus := fun x => Real.log (1 + Real.exp x)
  sampleGamma := sg

/-- class Beta: alpha and beta shape-parameter tensors plus the backend
namespace used to evaluate operations on them. -/
structure Beta where
  alpha : Tensor
  beta : Tensor
  F : Backend

namespace Beta

/-- `Beta.batch_shape`: the shape of alpha. -/
def batch_shape (d : Beta) : List Nat := d.alpha.shape

/-- `Beta.event_shape`: always empty. -/
def event_shape (_ : Beta) : List Nat := []

/-- `Beta.event_dim`: always 0. -/
def event_dim (_ : Beta) : Nat := 0

/-- `Beta.log_prob(x) = (alpha-1)*F.log(x) + (beta-1)*F.log(1-x)
- F.gammaln(alpha) - F.gammaln(beta) + F.gammaln(alpha+beta)`. -/
def log_prob (d : Beta) (x : Tensor) : Tensor :=
  (((((d.alpha.subScalar 1).mul (x.map d.F.log)).add
      ((d.beta.subScalar 1).mul ((Tensor.scalarSub 1 x).map d.F.log))).sub
    (d.alpha.map d.F.gammaln)).sub
    (d.beta.map d.F.gammaln)).add
    ((d.alpha.add d.beta).map d.F.gammaln)

/-- `Beta.mean = alpha / (alpha + beta)`. -/
def mean (d : Beta) : Tensor := d.alpha.div (d.alpha.add d.beta)

/-- `Beta.variance = (alpha*beta) / (F.square(alpha+beta) * (alpha+beta+1))`. -/
def variance (d : Beta) : Tensor :=
  (d.alpha.mul d.beta).div
    (((d.alpha.add d.beta).map d.F.square).mul ((d.alpha.add d.beta).addScalar 1))

/-- `Beta.stddev = F.sqrt(variance)`. -/
def stddev (d : Beta) : Tensor := d.variance.map d.F.sqrt

/-- The inner closure `s(alpha, beta)` of `Beta.sample`: draw
`X = F.sample_gamma(alpha, ones_like(alpha))`,
`Y = F.sample_gamma(beta, ones_like(beta))` and return `X/(X+Y)`. -/
def sampleDraw (F : Backend) (a b : Tensor) : Tensor :=
  (F.sampleGamma a (Tensor.onesLike a)).div
    ((F.sampleGamma a (Tensor.onesLike a)).add (F.sampleGamma b (Tensor.onesLike b)))

/-- Modelled from the spec: `_sample_multiple` from
gluonts.distribution.distribution (not under src) — with `num_samples`
absent it returns one draw of batch shape; with `num_samples = n` the
draw is repeated and stacked along a new leading axis of size `n`. -/
def sampleMultiple (s : Tensor → Tensor → Tensor) (a b : Tensor) :
    Option Nat → Tensor
  | none => s a b
  | some n => Tensor.stack n (s a b)

/-- `Beta.sample(num_samples)`. -/
def sample (d : Beta) (num_samples : Option Nat) : Tensor :=
  sampleMultiple (fun a b => sampleDraw d.F a b) d.alpha d.beta num_samples

/-- `Beta.args = [alpha, beta]`. -/
def args (d : Beta) : List Tensor := [d.alpha, d.beta]

end Beta

namespace BetaOutput

/-- `BetaOutput.domain_map(F, alpha, beta)`: apply `softplus + 1e-8` to
each raw tensor, squeeze the trailing axis, return the pair. -/
def domain_map (F : Backend) (alpha beta : Tensor) : Tensor × Tensor :=
  ((softplusT F alpha).addScalar 1e-8 |>.squeezeLast,
   (softplusT F beta).addScalar 1e-8 |>.squeezeLast)

/-- `BetaOutput.event_shape`: always empty. -/
def event_shape : List Nat := []

end BetaOutput

/-- C1: for every backend and all parameter and input tensors, log_prob
computes elementwise
(alpha-1)*log(x) + (beta-1)*log(1-x) - logGamma(alpha) - logGamma(beta)
+ logGamma(alpha+beta) with the backend's log and gammaln. -/
theorem c1_log_prob_formula (F : Backend) (a b x : Tensor) (i : Nat) :
    ((Beta.mk a b F).log_prob x).data i =
      (a.data i - 1) * F.log (x.data i)
        + (b.data i - 1) * F.log (1 - x.data i)
        - F.gammaln (a.data i) - F.gammaln (b.data i)
        + F.gammaln (a.data i + b.data i) := rfl

/-- C4: mean is alpha/(alpha+beta) elementwise and has batch shape. -/
theorem c4_mean_formula (F : Backend) (a b : Tensor) :
    (∀ i, ((Beta.mk a b F).mean).data i = a.data i / (a.data i + b.data i))
      ∧ ((Beta.mk a b F).mean).shape = (Beta.mk a b F).batch_shape :=
  ⟨fun _ => rfl, rfl⟩

/-- C5: with the mathematical backend, variance is
(alpha*beta)/((alpha+beta)^2*(alpha+beta+1)) elementwise and stddev is
the elementwise square root of variance. -/
theorem c5_variance_stddev (sg : Tensor → Tensor → Tensor) (a b : Tensor) :
    (∀ i, ((Beta.mk a b (mathBackend sg)).variance).data i =
        (a.data i * b.data i) /
          ((a.data i + b.data i) ^ 2 * (a.data i + b.data i + 1)))
      ∧ (∀ i, ((Beta.mk a b (mathBackend sg)).stddev).data i =
        Real.sqrt (((Beta.mk a b (mathBackend sg)).variance).data i)) :=
  ⟨fun _ => rfl, fun _ => rfl⟩

/-- A fixed gamma-sampler instantiation used in concrete instantiations:
it returns all ones (one possible draw of the external randomness). -/
def sgW : Tensor → Tensor → Tensor := fun t _ => Tensor.onesLike t

/-- A concrete shape-[2] tensor of ones. -/
def onesT : Tensor := ⟨[2], fun _ => 1⟩

/-- A concrete shape-[2] tensor of halves. -/
def halfT : Tensor := ⟨[2], fun _ => 1 / 2⟩

/-- A concrete raw-output tensor of shape (2, 1). -/
def rawT : Tensor := ⟨[2, 1], fun _ => 0⟩

/-- C2: domain_map applies softplus + 1e-8 elementwise to each raw input,
squeezes the trailing singleton dimension (shape (*batch, 1) becomes
(*batch)), and returns the transformed (alpha, beta) in that order. -/
theorem c2_domain_map (F : Backend) (bs : List Nat) (a b : Tensor)
    (ha : a.shape = bs ++ [1]) (hb : b.shape = bs ++ [1]) :
    (∀ i, (BetaOutput.domain_map F a b).1.data i = F.softplus (a.data i) + 1e-8)
      ∧ (∀ i, (BetaOutput.domain_map F a b).2.data i = F.softplus (b.data i) + 1e-8)
      ∧ (BetaOutput.domain_map F a b).1.shape = bs
      ∧ (BetaOutput.domain_map F a b).2.shape = bs := by
  refine ⟨fun _ => rfl, fun _ => rfl, ?_, ?_⟩
  · show ((softplusT F a).addScalar 1e-8).shape.dropLast = bs
    simp [softplusT, Tensor.map, Tensor.addScalar, ha]
  · show ((softplusT F b).addScalar 1e-8).shape.dropLast = bs
    simp [softplusT, Tensor.map, Tensor.addScalar, hb]

/-- Witness for C2 at a concrete (2,1)-shaped pair of raw tensors. -/
theorem c2_domain_map_witness :
    (BetaOutput.domain_map (mathBackend sgW) rawT rawT).1.shape = [2]
      ∧ (BetaOutput.domain_map (mathBackend sgW) rawT rawT).2.shape = [2]
      ∧ (BetaOutput.domain_map (mathBackend sgW) rawT rawT).1.data 0
          = (mathBackend sgW).softplus (rawT.data 0) + 1e-8 := by
  have h := c2_domain_map (mathBackend sgW) [2] rawT rawT rfl rfl
  exact ⟨h.2.2.1, h.2.2.2, h.1 0⟩

/-- C3: sample composes the backend gamma draws X with parameter alpha
and Y with parameter beta (both at unit scale via ones_like) as X/(X+Y);
assuming the backend sampler returns a tensor of the shape of its
parameter, sample() has batch shape and sample(num_samples=n) for
positive n has shape n :: batch shape. -/
theorem c3_sample_structure (F : Backend) (a b : Tensor)
    (hsg : ∀ t u : Tensor, (F.sampleGamma t u).shape = t.shape) :
    (∀ i, ((Beta.mk a b F).sample none).data i =
        (F.sampleGamma a (Tensor.onesLike a)).data i /
          ((F.sampleGamma a (Tensor.onesLike a)).data i
            + (F.sampleGamma b (Tensor.onesLike b)).data i))
      ∧ ((Beta.mk a b F).sample none).shape = (Beta.mk a b F).batch_shape
      ∧ (∀ n : Nat, 0 < n → ((Beta.mk a b F).sample (some n)).shape
          = n :: (Beta.mk a b F).batch_shape) := by
  refine ⟨fun _ => rfl, ?_, fun n _ => ?_⟩
  · show (Beta.sampleDraw F a b).shape = a.shape
    simp [Beta.sampleDraw, Tensor.div, Tensor.add, Tensor.map2, hsg]
  · show (Tensor.stack n (Beta.sampleDraw F a b)).shape = n :: a.shape
    simp [Tensor.stack, Beta.sampleDraw, Tensor.div, Tensor.add, Tensor.map2, hsg]

/-- Witness for C3 with the all-ones sampler and three requested samples. -/
theorem c3_sample_structure_witness :
    ((Beta.mk onesT onesT (mathBackend sgW)).sample (some 3)).shape
      = 3 :: (Beta.mk onesT onesT (mathBackend sgW)).batch_shape :=
  (c3_sample_structure (mathBackend sgW) onesT onesT
    (fun _ _ => rfl)).2.2 3 (by decide)

/-- C6: with the mathematical backend (softplus x = log(1+exp x)), every
component of domain_map is strictly positive and at least 1e-8, for
every real input. -/
theorem c6_domain_map_positive (sg : Tensor → Tensor → Tensor)
    (a b : Tensor) (i : Nat) :
    (1e-8 ≤ (BetaOutput.domain_map (mathBackend sg) a b).1.data i
        ∧ 0 < (BetaOutput.domain_map (mathBackend sg) a b).1.data i)
      ∧ (1e-8 ≤ (BetaOutput.domain_map (mathBackend sg) a b).2.data i
        ∧ 0 < (BetaOutput.domain_map (mathBackend sg) a b).2.data i) := by
  have hA : 0 < Real.log (1 + Real.exp (a.data i)) :=
    Real.log_pos (by linarith [Real.exp_pos (a.data i)])
  have hB : 0 < Real.log (1 + Real.exp (b.data i)) :=
    Real.log_pos (by linarith [Real.exp_pos (b.data i)])
  have e1 : (BetaOutput.domain_map (mathBackend sg) a b).1.data i
      = Real.log (1 + Real.exp (a.data i)) + 1e-8 := rfl
  have e2 : (BetaOutput.domain_map (mathBackend sg) a b).2.data i
      = Real.log (1 + Real.exp (b.data i)) + 1e-8 := rfl
  rw [e1, e2]
  have h8 : (0 : ℝ) < 1e-8 := by norm_num
  exact ⟨⟨by linarith, by linarith⟩, by linarith, by linarith⟩

/-- C7: for strictly positive parameters, the mean lies strictly in
(0,1) and the variance is strictly positive and strictly below
mean * (1 - mean), elementwise. -/
theorem c7_mean_variance_bounds (sg : Tensor → Tensor → Tensor)
    (a b : Tensor) (ha : ∀ i, 0 < a.data i) (hb : ∀ i, 0 < b.data i) :
    ∀ i, 0 < ((Beta.mk a b (mathBackend sg)).mean).data i
      ∧ ((Beta.mk a b (mathBackend sg)).mean).data i < 1
      ∧ 0 < ((Beta.mk a b (mathBackend sg)).variance).data i
      ∧ ((Beta.mk a b (mathBackend sg)).variance).data i <
          ((Beta.mk a b (mathBackend sg)).mean).data i
            * (1 - ((Beta.mk a b (mathBackend sg)).mean).data i) := by
  intro i
  have hα := ha i
  have hβ := hb i
  have hs : 0 < a.data i + b.data i := by linarith
  have hm : ((Beta.mk a b (mathBackend sg)).mean).data i
      = a.data i / (a.data i + b.data i) := rfl
  have hv : ((Beta.mk a b (mathBackend sg)).variance).data i
      = (a.data i * b.data i) /
          ((a.data i + b.data i) ^ 2 * (a.data i + b.data i + 1)) := rfl
  rw [hm, hv]
  refine ⟨div_pos hα hs, (div_lt_one hs).mpr (by linarith), ?_, ?_⟩
  · exact div_pos (mul_pos hα hβ)
      (mul_pos (pow_pos hs 2) (by linarith))
  · have hmm : a.data i / (a.data i + b.data i)
        * (1 - a.data i / (a.data i + b.data i))
        = (a.data i * b.data i) / (a.data i + b.data i) ^ 2 := by
      field_simp
      ring
    rw [hmm]
    exact div_lt_div_of_pos_left (mul_pos hα hβ) (pow_pos hs 2)
      (by nlinarith [pow_pos hs 2, mul_pos (pow_pos hs 2) hs])

/-- Witness for C7 at the all-ones parameter tensors. -/
theorem c7_mean_variance_bounds_witness :
    0 < ((Beta.mk onesT onesT (mathBackend sgW)).mean).data 0
      ∧ ((Beta.mk onesT onesT (mathBackend sgW)).mean).data 0 < 1
      ∧ 0 < ((Beta.mk onesT onesT (mathBackend sgW)).variance).data 0
      ∧ ((Beta.mk onesT onesT (mathBackend sgW)).variance).data 0 <
          ((Beta.mk onesT onesT (mathBackend sgW)).mean).data 0
            * (1 - ((Beta.mk onesT onesT (mathBackend sgW)).mean).data 0) :=
  c7_mean_variance_bounds sgW onesT onesT
    (fun _ => one_pos) (fun _ => one_pos) 0

/-- C8: with all-ones parameters (the uniform special case), the mean is
0.5, the variance is 1/12, and log_prob vanishes on every x in (0,1). -/
theorem c8_uniform_case (sg : Tensor → Tensor → Tensor) (a b x : Tensor)
    (ha : ∀ i, a.data i = 1) (hb : ∀ i, b.data i = 1)
    (_hx : ∀ i, 0 < x.data i ∧ x.data i < 1) :
    (∀ i, ((Beta.mk a b (mathBackend sg)).mean).data i = 1 / 2)
      ∧ (∀ i, ((Beta.mk a b (mathBackend sg)).variance).data i = 1 / 12)
      ∧ (∀ i, ((Beta.mk a b (mathBackend sg)).log_prob x).data i = 0) := by
  refine ⟨fun i => ?_, fun i => ?_, fun i => ?_⟩
  · have e : ((Beta.mk a b (mathBackend sg)).mean).data i
        = a.data i / (a.data i + b.data i) := rfl
    rw [e, ha i, hb i]
    norm_num
  · have e : ((Beta.mk a b (mathBackend sg)).variance).data i
        = (a.data i * b.data i) /
            ((a.data i + b.data i) ^ 2 * (a.data i + b.data i + 1)) := rfl
    rw [e, ha i, hb i]
    norm_num
  · have e : ((Beta.mk a b (mathBackend sg)).log_prob x).data i
        = (a.data i - 1) * Real.log (x.data i)
          + (b.data i - 1) * Real.log (1 - x.data i)
          - Real.log (Real.Gamma (a.data i))
          - Real.log (Real.Gamma (b.data i))
          + Real.log (Real.Gamma (a.data i + b.data i)) := rfl
    rw [e, ha i, hb i]
    norm_num [Real.Gamma_one, Real.Gamma_two, Real.log_one]

/-- Witness for C8 at all-ones parameters and x all one-half. -/
theorem c8_uniform_case_witness :
    ((Beta.mk onesT onesT (mathBackend sgW)).mean).data 0 = 1 / 2
      ∧ ((Beta.mk onesT onesT (mathBackend sgW)).variance).data 0 = 1 / 12
      ∧ ((Beta.mk onesT onesT (mathBackend sgW)).log_prob halfT).data 0 = 0 := by
  have h := c8_uniform_case sgW onesT onesT halfT (fun _ => rfl) (fun _ => rfl)
    (fun _ => ⟨by norm_num [halfT], by norm_num [halfT]⟩)
  exact ⟨h.1 0, h.2.1 0, h.2.2 0⟩

/-- C9: swapping the shape parameters reflects the distribution about
one half: for every backend, positive parameters and x in (0,1),
log_prob of Beta(alpha, beta) at x equals log_prob of Beta(beta, alpha)
at 1-x, and the mean of Beta(alpha, beta) is 1 minus the mean of
Beta(beta, alpha), elementwise. -/
theorem c9_reflection (F : Backend) (a b x : Tensor)
    (ha : ∀ i, 0 < a.data i) (hb : ∀ i, 0 < b.data i)
    (_hx : ∀ i, 0 < x.data i ∧ x.data i < 1) :
    (∀ i, ((Beta.mk a b F).log_prob x).data i
        = ((Beta.mk b a F).log_prob (Tensor.scalarSub 1 x)).data i)
      ∧ (∀ i, ((Beta.mk a b F).mean).data i
        = 1 - ((Beta.mk b a F).mean).data i) := by
  constructor
  · intro i
    have eL : ((Beta.mk a b F).log_prob x).data i
        = (a.data i - 1) * F.log (x.data i)
          + (b.data i - 1) * F.log (1 - x.data i)
          - F.gammaln (a.data i) - F.gammaln (b.data i)
          + F.gammaln (a.data i + b.data i) := rfl
    have eR : ((Beta.mk b a F).log_prob (Tensor.scalarSub 1 x)).data i
        = (b.data i - 1) * F.log (1 - x.data i)
          + (a.data i - 1) * F.log (1 - (1 - x.data i))
          - F.gammaln (b.data i) - F.gammaln (a.data i)
          + F.gammaln (b.data i + a.data i) := rfl
    have hxx : (1 : ℝ) - (1 - x.data i) = x.data i := by ring
    rw [eL, eR, hxx, add_comm (b.data i) (a.data i)]
    ring
  · intro i
    have h1 : a.data i + b.data i ≠ 0 := by
      have := ha i; have := hb i; positivity
    have h2 : b.data i + a.data i ≠ 0 := by
      have := ha i; have := hb i; positivity
    have eL : ((Beta.mk a b F).mean).data i
        = a.data i / (a.data i + b.data i) := rfl
    have eR : ((Beta.mk b a F).mean).data i
        = b.data i / (b.data i + a.data i) := rfl
    rw [eL, eR]
    have hsum : a.data i / (a.data i + b.data i)
        + b.data i / (b.data i + a.data i) = 1 := by
      rw [add_comm (b.data i) (a.data i), div_add_div_same, div_self h1]
    linarith

/-- Witness for C9 at all-ones parameters and x all one-half. -/
theorem c9_reflection_witness :
    ((Beta.mk onesT onesT (mathBackend sgW)).log_prob halfT).data 0
        = ((Beta.mk onesT onesT (mathBackend sgW)).log_prob
            (Tensor.scalarSub 1 halfT)).data 0
      ∧ ((Beta.mk onesT onesT (mathBackend sgW)).mean).data 0
        = 1 - ((Beta.mk onesT onesT (mathBackend sgW)).mean).data 0 := by
  have h := c9_reflection (mathBackend sgW) onesT onesT halfT
    (fun _ => one_pos) (fun _ => one_pos)
    (fun _ => ⟨by norm_num [halfT], by norm_num [halfT]⟩)
  exact ⟨h.1 0, h.2 0⟩

/-- C10: if the backend gamma sampler returns strictly positive values,
the denominator X+Y of the ratio is strictly positive and every entry of
Beta.sample, with or without num_samples, lies strictly in (0,1). -/
theorem c10_sample_in_unit_interval (F : Backend) (a b : Tensor)
    (hpos : ∀ t u : Tensor, ∀ i, 0 < (F.sampleGamma t u).data i) :
    (∀ i, 0 < (F.sampleGamma a (Tensor.onesLike a)).data i
        + (F.sampleGamma b (Tensor.onesLike b)).data i)
      ∧ ∀ ns : Option Nat, ∀ i,
          0 < ((Beta.mk a b F).sample ns).data i
            ∧ ((Beta.mk a b F).sample ns).data i < 1 := by
  have hX := hpos a (Tensor.onesLike a)
  have hY := hpos b (Tensor.onesLike b)
  have hden : ∀ i, 0 < (F.sampleGamma a (Tensor.onesLike a)).data i
      + (F.sampleGamma b (Tensor.onesLike b)).data i := by
    intro i
    have := hX i
    have := hY i
    linarith
  have key : ∀ j, 0 < (Beta.sampleDraw F a b).data j
      ∧ (Beta.sampleDraw F a b).data j < 1 := by
    intro j
    have e : (Beta.sampleDraw F a b).data j
        = (F.sampleGamma a (Tensor.onesLike a)).data j /
            ((F.sampleGamma a (Tensor.onesLike a)).data j
              + (F.sampleGamma b (Tensor.onesLike b)).data j) := rfl
    rw [e]
    refine ⟨div_pos (hX j) (hden j), (div_lt_one (hden j)).mpr ?_⟩
    have := hY j
    linarith
  refine ⟨hden, fun ns i => ?_⟩
  cases ns with
  | none => exact key i
  | some n => exact key (i % (Beta.sampleDraw F a b).shape.prod)

/-- Witness for C10 with the all-ones sampler, two requested samples. -/
theorem c10_sample_in_unit_interval_witness :
    0 < ((Beta.mk onesT onesT (mathBackend sgW)).sample (some 2)).data 0
      ∧ ((Beta.mk onesT onesT (mathBackend sgW)).sample (some 2)).data 0 < 1 :=
  (c10_sample_in_unit_interval (mathBackend sgW) onesT onesT
    (fun _ _ _ => one_pos)).2 (some 2) 0

end

end GluonTS
